import Mathlib

/-!
Shallow embedding of the utility functions in `src/main.py`:
`get_days_from_today`, `get_numbers_ticket`, `normalize_phone` and
`get_upcoming_birthdays`, together with the proleptic Gregorian calendar
arithmetic of Python's `datetime.date` that they rely on.

Python exceptions are modelled with `Except PyErr`; `datetime.date` values
are triples of naturals; `datetime.strptime` with the formats `%Y-%m-%d`
and `%Y.%m.%d` is modelled after CPython's `_strptime` regexes (a year is
exactly four digits; a month or day may drop its leading zero).
-/

deriving instance DecidableEq for Except

/-- Python exceptions that the embedded code can raise. -/
inductive PyErr where
  | valueError (msg : String)
  | keyError (key : String)
deriving Repr, DecidableEq

/-! ## Calendar arithmetic (Python `datetime.date`) -/

/-- Gregorian leap-year test, as in CPython's `datetime` module. -/
def isLeap (y : Nat) : Bool :=
  y % 4 == 0 && (y % 100 != 0 || y % 400 == 0)

/-- Length of month `m` (1-12) in a year whose leap flag is `l`. -/
def monthLen (l : Bool) (m : Nat) : Nat :=
  match m with
  | 2 => if l then 29 else 28
  | 4 => 30 | 6 => 30 | 9 => 30 | 11 => 30
  | _ => 31

/-- Number of days in month `m` of year `y`. -/
def daysInMonth (y m : Nat) : Nat := monthLen (isLeap y) m

/-- Days strictly before month `m` (1-12) in a year with leap flag `l`. -/
def monthCum (l : Bool) (m : Nat) : Nat :=
  let f : Nat := if l then 1 else 0
  match m with
  | 1 => 0
  | 2 => 31
  | 3 => 59 + f
  | 4 => 90 + f
  | 5 => 120 + f
  | 6 => 151 + f
  | 7 => 181 + f
  | 8 => 212 + f
  | 9 => 243 + f
  | 10 => 273 + f
  | 11 => 304 + f
  | _ => 334 + f

/-- A Python `datetime.date` value: year, month, day. -/
structure PyDate where
  year : Nat
  month : Nat
  day : Nat
deriving Repr, DecidableEq

/-- Purely calendrical validity (ignores `datetime`'s year bounds). -/
def CalValid (d : PyDate) : Prop :=
  1 ≤ d.year ∧ 1 ≤ d.month ∧ d.month ≤ 12 ∧ 1 ≤ d.day ∧ d.day ≤ daysInMonth d.year d.month

instance (d : PyDate) : Decidable (CalValid d) := by
  unfold CalValid; infer_instance

/-- Validity of a `datetime.date`: calendrical validity plus the
`MINYEAR = 1` and `MAXYEAR = 9999` bounds. -/
def Valid (d : PyDate) : Prop := CalValid d ∧ d.year ≤ 9999

instance (d : PyDate) : Decidable (Valid d) := by
  unfold Valid; infer_instance

/-- Days before January 1 of year `y` (so year 1 contributes 0);
`toOrdinal ⟨1,1,1⟩ = 1`, exactly Python's `date.toordinal`. -/
def daysBeforeYear (y : Nat) : Nat :=
  365 * (y - 1) + (y - 1) / 4 - (y - 1) / 100 + (y - 1) / 400

/-- Day of the year, 1-based (`⟨y,1,1⟩` gives 1). -/
def dayOfYear (d : PyDate) : Nat := monthCum (isLeap d.year) d.month + d.day

/-- Python's `date.toordinal`: day count with `0001-01-01` as day 1. -/
def toOrdinal (d : PyDate) : Nat := daysBeforeYear d.year + dayOfYear d

/-- Python's `date.weekday`: Monday is 0, Sunday is 6. -/
def weekday (d : PyDate) : Nat := (toOrdinal d + 6) % 7

/-- The calendar successor of a date (one day later). -/
def nextDay (d : PyDate) : PyDate :=
  if d.day < daysInMonth d.year d.month then ⟨d.year, d.month, d.day + 1⟩
  else if d.month < 12 then ⟨d.year, d.month + 1, 1⟩
  else ⟨d.year + 1, 1, 1⟩

/-- `d + timedelta(days = n)` for a nonnegative `n`. -/
def addDays (d : PyDate) : Nat → PyDate
  | 0 => d
  | n + 1 => addDays (nextDay d) n

/-- Python's comparison of `date` values (lexicographic on y, m, d). -/
def dateLtB (a b : PyDate) : Bool :=
  a.year < b.year ||
    (a.year == b.year && (a.month < b.month ||
      (a.month == b.month && a.day < b.day)))

/-! ## `strptime` with formats `%Y-%m-%d` / `%Y.%m.%d`

CPython's `_strptime` matches `%Y` with regex `\d\d\d\d`, `%m` with
`1[0-2]|0[1-9]|[1-9]` and `%d` with `3[01]|[12]\d|0[1-9]|[1-9]`, then
builds the `datetime`, which validates the day against the month and the
year against `MINYEAR`/`MAXYEAR`.  The whole string must be consumed. -/

/-- Numeric value of a digit character. -/
def digVal (c : Char) : Nat := c.toNat - 48

/-- Does `c` lie in the regex class `[1-9]`? -/
def isDig19 (c : Char) : Bool := '1' ≤ c && c ≤ '9'

/-- `%Y`: exactly four digit characters. -/
def parseYear4 (l : List Char) : Option (Nat × List Char) :=
  match l with
  | a :: b :: c :: d :: rest =>
    if a.isDigit && b.isDigit && c.isDigit && d.isDigit then
      some (((digVal a * 10 + digVal b) * 10 + digVal c) * 10 + digVal d, rest)
    else none
  | _ => none

/-- `%m`: regex `1[0-2]|0[1-9]|[1-9]`, leftmost alternative first. -/
def parseMonth (l : List Char) : Option (Nat × List Char) :=
  match l with
  | c :: c2 :: rest =>
    if c = '1' && (c2 = '0' || c2 = '1' || c2 = '2') then some (10 + digVal c2, rest)
    else if c = '0' then (if isDig19 c2 then some (digVal c2, rest) else none)
    else if isDig19 c then some (digVal c, c2 :: rest)
    else none
  | [c] => if isDig19 c then some (digVal c, []) else none
  | [] => none

/-- `%d`: regex `3[01]|[12]\d|0[1-9]|[1-9]`, leftmost alternative first. -/
def parseDay (l : List Char) : Option (Nat × List Char) :=
  match l with
  | c :: c2 :: rest =>
    if c = '3' && (c2 = '0' || c2 = '1') then some (30 + digVal c2, rest)
    else if (c = '1' || c = '2') && c2.isDigit then some (digVal c * 10 + digVal c2, rest)
    else if c = '0' then (if isDig19 c2 then some (digVal c2, rest) else none)
    else if isDig19 c then some (digVal c, c2 :: rest)
    else none
  | [c] => if isDig19 c then some (digVal c, []) else none
  | [] => none

/-- Match `%Y sep %m sep %d` against the whole character list. -/
def parseDateCore (sep : Char) (l : List Char) : Option (Nat × Nat × Nat) :=
  match parseYear4 l with
  | none => none
  | some (y, r1) =>
    match r1 with
    | s1 :: r2 =>
      if s1 = sep then
        match parseMonth r2 with
        | none => none
        | some (m, r3) =>
          match r3 with
          | s2 :: r4 =>
            if s2 = sep then
              match parseDay r4 with
              | none => none
              | some (d, r5) => if r5 = [] then some (y, m, d) else none
            else none
          | [] => none
      else none
    | [] => none

/-- `datetime.strptime(s, "%Y" sep "%m" sep "%d").date()`: regex match plus
`datetime` construction (which validates the calendar date and year bounds). -/
def strptimeDate (sep : Char) (l : List Char) : Option PyDate :=
  match parseDateCore sep l with
  | none => none
  | some (y, m, d) =>
    if Valid ⟨y, m, d⟩ then some ⟨y, m, d⟩ else none

/-! ## `strftime("%Y.%m.%d")` -/

/-- Four zero-padded decimal digits (years here are at most 9999). -/
def pad4 (n : Nat) : List Char :=
  [Nat.digitChar (n / 1000 % 10), Nat.digitChar (n / 100 % 10),
   Nat.digitChar (n / 10 % 10), Nat.digitChar (n % 10)]

/-- Two zero-padded decimal digits (months and days are below 100). -/
def pad2 (n : Nat) : List Char :=
  [Nat.digitChar (n / 10 % 10), Nat.digitChar (n % 10)]

/-- `date.strftime("%Y.%m.%d")`. -/
def strftimeDot (d : PyDate) : String :=
  String.mk (pad4 d.year ++ '.' :: pad2 d.month ++ '.' :: pad2 d.day)

/-! ## `get_days_from_today`

`today` (Python reads the system clock) is passed explicitly, as the spec's
design notes ask for an injectable clock. -/

/-- `get_days_from_today(date_str)` from `src/main.py`: parse with
`%Y-%m-%d` (re-raising any parse failure as a `ValueError` with a fixed
message) and return `today - input_date` in whole days. -/
def get_days_from_today (today : PyDate) (date_str : String) : Except PyErr Int :=
  match strptimeDate '-' date_str.data with
  | none => .error (.valueError "Invalid date format. Expected \x27YYYY-MM-DD\x27.")
  | some input_date => .ok ((toOrdinal today : Int) - (toOrdinal input_date : Int))

/-! ## `get_numbers_ticket`

`random.sample(range(min_val, max_val + 1), quantity)` is passed as an
explicit sampler, as the spec's design notes ask for an injectable
randomness source.  `IsValidSampler` is exactly `random.sample`'s
guarantee: a list of `k` distinct members of the population. -/

/-- A sampler stands for `random.sample(range(lo, hi + 1), k)`: whenever the
requested size fits the population it returns `k` distinct integers from
`[lo, hi]` (in unspecified order). -/
def IsValidSampler (f : Int → Int → Nat → List Int) : Prop :=
  ∀ lo hi : Int, ∀ k : Nat, (k : Int) ≤ hi + 1 - lo →
    (f lo hi k).length = k ∧ (f lo hi k).Nodup ∧ ∀ x ∈ f lo hi k, lo ≤ x ∧ x ≤ hi

/-- `get_numbers_ticket(min_val, max_val, quantity)` from `src/main.py`:
validate the bounds, otherwise sample and sort ascending. -/
def get_numbers_ticket (sample : Int → Int → Nat → List Int)
    (min_val max_val quantity : Int) : List Int :=
  if min_val < 1 || max_val > 1000 || quantity < 1 ||
      quantity > max_val - min_val + 1 then []
  else List.insertionSort (· ≤ ·) (sample min_val max_val quantity.toNat)

/-! ## `normalize_phone` -/

/-- Python's `str.strip()` whitespace test, restricted to the ASCII
whitespace characters (`str.strip` also removes some further Unicode
whitespace, which no claim distinguishes). -/
def isPySpace (c : Char) : Bool :=
  c = ' ' || c = '\t' || c = '\n' || c = '\x0b' || c = '\x0c' || c = '\r'

/-- `str.strip()`: drop whitespace from both ends. -/
def pyStrip (l : List Char) : List Char :=
  ((l.dropWhile isPySpace).reverse.dropWhile isPySpace).reverse

/-- `re.sub(r"\D", "", s)`: keep only digit characters.  (Python's `\d`
also matches non-ASCII decimal digits; no claim distinguishes those.) -/
def keepDigits (l : List Char) : List Char := l.filter Char.isDigit

/-- `s.startswith(c)` for a single character. -/
def startsWithChar (c : Char) (l : List Char) : Bool :=
  match l with
  | x :: _ => x = c
  | [] => false

/-- Core of `normalize_phone` on character lists: `strip`, then either the
`+`-branch (digits of `stripped[1:]`) or the `380`/`+38` branch. -/
def normalizeCore (l : List Char) : List Char :=
  let stripped := pyStrip l
  if startsWithChar '+' stripped then '+' :: keepDigits (stripped.drop 1)
  else
    let digits := keepDigits stripped
    if List.isPrefixOf ['3', '8', '0'] digits then '+' :: digits
    else '+' :: '3' :: '8' :: digits

/-- `normalize_phone(phone_number)` from `src/main.py`. -/
def normalize_phone (phone_number : String) : String :=
  String.mk (normalizeCore phone_number.data)

/-! ## `get_upcoming_birthdays` -/

/-- A user dictionary: the two keys the code reads, each possibly absent. -/
structure PyUser where
  name : Option String
  birthday : Option String
deriving Repr, DecidableEq

/-- A greeting dictionary produced by `get_upcoming_birthdays`. -/
structure Greeting where
  name : String
  congratulation_date : String
deriving Repr, DecidableEq

/-- `bd.replace(year = y)`: rebuild the date with a new year, raising
`ValueError` (here `none`) when the result is not a valid `datetime.date`. -/
def replace_year (bd : PyDate) (y : Nat) : Option PyDate :=
  if Valid ⟨y, bd.month, bd.day⟩ then some ⟨y, bd.month, bd.day⟩ else none

/-- `bd.replace(year = y, day = d)`. -/
def replace_year_day (bd : PyDate) (y d : Nat) : Option PyDate :=
  if Valid ⟨y, bd.month, d⟩ then some ⟨y, bd.month, d⟩ else none

/-- One `try/except ValueError` block of lines 86-91 (and 94-99) of
`src/main.py`: `bd.replace(year = y)`, falling back to
`bd.replace(year = y, day = bd.day - 1)`; a `ValueError` of the fallback
itself is not caught and propagates. -/
def tryReplace (bd : PyDate) (y : Nat) : Except PyErr PyDate :=
  match replace_year bd y with
  | some nb => .ok nb
  | none =>
    match replace_year_day bd y (bd.day - 1) with
    | some nb => .ok nb
    | none => .error (.valueError "day is out of range for month")

/-- Lines 86-99 of `src/main.py`: this-year occurrence of the birthday with
the Feb-29 fallback to day 28, recomputed for next year when it already
passed. -/
def nextBirthdayOcc (today bd : PyDate) : Except PyErr PyDate :=
  match tryReplace bd today.year with
  | .error e => .error e
  | .ok nb =>
    if dateLtB nb today then tryReplace bd (today.year + 1) else .ok nb

/-- The body of the `for` loop of `get_upcoming_birthdays` for one user:
`ok none` when the record is skipped, `ok (some g)` when a greeting is
emitted, `error` when an uncaught exception propagates. -/
def processUser (today : PyDate) (user : PyUser) : Except PyErr (Option Greeting) :=
  match user.birthday.bind (fun s => strptimeDate '.' s.data) with
  | none => .ok none
  | some birthday_date =>
    match nextBirthdayOcc today birthday_date with
    | .error e => .error e
    | .ok nb =>
      let days_until_birthday : Int := (toOrdinal nb : Int) - (toOrdinal today : Int)
      if 0 ≤ days_until_birthday ∧ days_until_birthday ≤ 7 then
        let nb2 := if weekday nb = 5 then addDays nb 2
          else if weekday nb = 6 then addDays nb 1 else nb
        match user.name with
        | some n => .ok (some ⟨n, strftimeDot nb2⟩)
        | none => .error (.keyError "name")
      else .ok none

/-- `get_upcoming_birthdays(users)` from `src/main.py`, with `today`
injected; the first uncaught exception aborts the whole call. -/
def get_upcoming_birthdays (today : PyDate) : List PyUser → Except PyErr (List Greeting)
  | [] => .ok []
  | user :: rest =>
    match processUser today user with
    | .error e => .error e
    | .ok og =>
      match get_upcoming_birthdays today rest with
      | .error e => .error e
      | .ok l =>
        match og with
        | some g => .ok (g :: l)
        | none => .ok l

/-! ## Definitions taken from the specification's wording

These are *not* translations of `src/main.py`; they restate what the spec
says, so that refinement theorems can compare them with the source
translations above. -/

/-- The spec's step list for `PhoneNormalizer`, verbatim: trim surrounding
whitespace; if the trimmed string starts with `+`, keep only the digit
characters of the remainder; otherwise take only the digit characters of
the whole string and return `+` + digits if they start with `380`, else
`+38` + digits. -/
def normalizeSpecCore (l : List Char) : List Char :=
  let stripped := pyStrip l
  if startsWithChar '+' stripped then '+' :: keepDigits (stripped.drop 1)
  else
    let digits := keepDigits l
    if List.isPrefixOf ['3', '8', '0'] digits then '+' :: digits
    else '+' :: '3' :: '8' :: digits

/-- `PhoneNormalizer` as described by the spec. -/
def normalize_phone_spec (s : String) : String :=
  String.mk (normalizeSpecCore s.data)

/-- A calendar date rendered in the spec's strict `YYYY-MM-DD` shape:
four-digit zero-padded year, two-digit zero-padded month and day. -/
def renderYMD (y m d : Nat) : String :=
  String.mk (pad4 y ++ '-' :: pad2 m ++ '-' :: pad2 d)

/-- Does a string match the spec's strict `YYYY-MM-DD` format and denote a
valid calendar date?  (Two-digit month and day, as the format's letters
say.) -/
def strictYMD (s : String) : Bool :=
  match s.data with
  | [a, b, c, d, s1, e, f, s2, g, h] =>
    a.isDigit && b.isDigit && c.isDigit && d.isDigit && s1 = '-' &&
    e.isDigit && f.isDigit && s2 = '-' && g.isDigit && h.isDigit &&
    Valid ⟨((digVal a * 10 + digVal b) * 10 + digVal c) * 10 + digVal d,
      digVal e * 10 + digVal f, digVal g * 10 + digVal h⟩
  | _ => false

/-- A deterministic sampler (the range's first `k` values), used to witness
that the sampler contract `IsValidSampler` is satisfiable. -/
def detSample (lo : Int) (_hi : Int) (k : Nat) : List Int :=
  (List.range k).map (fun (i : Nat) => lo + (i : Int))

/-! ## Calendar lemmas -/

lemma isLeap_iff (y : Nat) :
    isLeap y = true ↔ (y % 4 = 0 ∧ (y % 100 ≠ 0 ∨ y % 400 = 0)) := by
  simp [isLeap]

lemma monthLen_ge (l : Bool) (m : Nat) : 28 ≤ monthLen l m := by
  unfold monthLen
  split <;> first | omega | (split <;> omega)

lemma monthCum_succ :
    ∀ (l : Bool), ∀ m < 12, 1 ≤ m → monthCum l (m + 1) = monthCum l m + monthLen l m := by
  decide

lemma monthCum_12 (l : Bool) :
    monthCum l 12 + monthLen l 12 = 365 + (if l then 1 else 0) := by
  cases l <;> rfl

lemma monthLen_close :
    ∀ (l1 l2 : Bool), ∀ m < 13, monthLen l1 m ≤ monthLen l2 m + 1 := by
  decide

set_option maxHeartbeats 1000000 in
lemma daysBeforeYear_succ (y : Nat) (hy : 1 ≤ y) :
    daysBeforeYear (y + 1) = daysBeforeYear y + 365 + (if isLeap y then 1 else 0) := by
  by_cases h : isLeap y = true
  · have h2 := (isLeap_iff y).mp h
    rw [h]
    simp only [daysBeforeYear, if_true]
    omega
  · have h2 : ¬ (y % 4 = 0 ∧ (y % 100 ≠ 0 ∨ y % 400 = 0)) := fun hc => h ((isLeap_iff y).mpr hc)
    rw [Bool.not_eq_true] at h
    rw [h]
    show daysBeforeYear (y + 1) = daysBeforeYear y + 365 + 0
    simp only [daysBeforeYear]
    omega

lemma ord_nextDay (d : PyDate) (h : CalValid d) : toOrdinal (nextDay d) = toOrdinal d + 1 := by
  obtain ⟨hy, hm1, hm2, hd1, hd2⟩ := h
  unfold nextDay
  split_ifs with h1 h2
  · show daysBeforeYear d.year + (monthCum (isLeap d.year) d.month + (d.day + 1)) =
      daysBeforeYear d.year + (monthCum (isLeap d.year) d.month + d.day) + 1
    omega
  · have hday : d.day = monthLen (isLeap d.year) d.month := by
      simp only [daysInMonth] at h1 hd2; omega
    have hc := monthCum_succ (isLeap d.year) d.month h2 hm1
    show daysBeforeYear d.year + (monthCum (isLeap d.year) (d.month + 1) + 1) =
      daysBeforeYear d.year + (monthCum (isLeap d.year) d.month + d.day) + 1
    omega
  · have hm : d.month = 12 := by omega
    have hday : d.day = monthLen (isLeap d.year) 12 := by
      simp only [daysInMonth, hm] at h1 hd2; omega
    have h12 := monthCum_12 (isLeap d.year)
    have hsy := daysBeforeYear_succ d.year hy
    show daysBeforeYear (d.year + 1) + (monthCum (isLeap (d.year + 1)) 1 + 1) =
      daysBeforeYear d.year + (monthCum (isLeap d.year) d.month + d.day) + 1
    have hc1 : monthCum (isLeap (d.year + 1)) 1 = 0 := rfl
    rw [hc1, hm, hday]
    omega

lemma calValid_nextDay (d : PyDate) (h : CalValid d) : CalValid (nextDay d) := by
  obtain ⟨hy, hm1, hm2, hd1, hd2⟩ := h
  unfold nextDay
  split_ifs with h1 h2
  · exact ⟨hy, hm1, hm2, show 1 ≤ d.day + 1 by omega,
      show d.day + 1 ≤ daysInMonth d.year d.month from h1⟩
  · exact ⟨hy, show 1 ≤ d.month + 1 by omega, show d.month + 1 ≤ 12 by omega, Nat.le_refl 1,
      show 1 ≤ monthLen (isLeap d.year) (d.month + 1) from
        le_trans (by omega) (monthLen_ge _ _)⟩
  · exact ⟨show 1 ≤ d.year + 1 by omega, Nat.le_refl 1, show (1 : Nat) ≤ 12 by omega,
      Nat.le_refl 1,
      show 1 ≤ monthLen (isLeap (d.year + 1)) 1 from le_trans (by omega) (monthLen_ge _ _)⟩

lemma weekday_lt (d : PyDate) : weekday d < 7 := Nat.mod_lt _ (by omega)

lemma weekday_nextDay (d : PyDate) (h : CalValid d) :
    weekday (nextDay d) = (weekday d + 1) % 7 := by
  unfold weekday
  rw [ord_nextDay d h]
  omega

lemma addDays_one (d : PyDate) : addDays d 1 = nextDay d := rfl

lemma addDays_two (d : PyDate) : addDays d 2 = nextDay (nextDay d) := rfl

lemma calValid_addDays (d : PyDate) (h : CalValid d) (n : Nat) : CalValid (addDays d n) := by
  induction n generalizing d with
  | zero => exact h
  | succ k ih => exact ih (nextDay d) (calValid_nextDay d h)

lemma weekday_addDays (d : PyDate) (h : CalValid d) (n : Nat) :
    weekday (addDays d n) = (weekday d + n) % 7 := by
  induction n generalizing d with
  | zero =>
    have := weekday_lt d
    show weekday d = (weekday d + 0) % 7
    omega
  | succ k ih =>
    have : addDays d (k + 1) = addDays (nextDay d) k := rfl
    rw [this, ih (nextDay d) (calValid_nextDay d h), weekday_nextDay d h]
    omega

/-! ## Parsing and occurrence lemmas -/

lemma valid_mk (y m d : Nat) (h1 : 1 ≤ y) (h2 : y ≤ 9999) (h3 : 1 ≤ m) (h4 : m ≤ 12)
    (h5 : 1 ≤ d) (h6 : d ≤ monthLen (isLeap y) m) : Valid ⟨y, m, d⟩ :=
  ⟨⟨h1, h3, h4, h5, h6⟩, h2⟩

lemma strptimeDate_valid (sep : Char) (l : List Char) (d : PyDate)
    (h : strptimeDate sep l = some d) : Valid d := by
  unfold strptimeDate at h
  cases hp : parseDateCore sep l with
  | none => rw [hp] at h; cases h
  | some t =>
    obtain ⟨y, m, dd⟩ := t
    rw [hp] at h
    dsimp only at h
    by_cases hv : Valid ⟨y, m, dd⟩
    · rw [if_pos hv] at h
      cases h
      exact hv
    · rw [if_neg hv] at h
      cases h

lemma replace_year_some (bd : PyDate) (y : Nat) (nb : PyDate)
    (h : replace_year bd y = some nb) :
    nb = ⟨y, bd.month, bd.day⟩ ∧ Valid nb := by
  unfold replace_year at h
  by_cases hv : Valid ⟨y, bd.month, bd.day⟩
  · rw [if_pos hv] at h
    cases h
    exact ⟨rfl, hv⟩
  · rw [if_neg hv] at h
    cases h

lemma replace_year_none (bd : PyDate) (y : Nat) (h : replace_year bd y = none) :
    ¬ Valid ⟨y, bd.month, bd.day⟩ := by
  unfold replace_year at h
  by_cases hv : Valid ⟨y, bd.month, bd.day⟩
  · rw [if_pos hv] at h
    cases h
  · exact hv

lemma replace_year_day_some (bd : PyDate) (y dd : Nat) (nb : PyDate)
    (h : replace_year_day bd y dd = some nb) :
    nb = ⟨y, bd.month, dd⟩ ∧ Valid nb := by
  unfold replace_year_day at h
  by_cases hv : Valid ⟨y, bd.month, dd⟩
  · rw [if_pos hv] at h
    cases h
    exact ⟨rfl, hv⟩
  · rw [if_neg hv] at h
    cases h

lemma tryReplace_valid (bd : PyDate) (y : Nat) (nb : PyDate)
    (h : tryReplace bd y = .ok nb) : Valid nb ∧ nb.year = y ∧ nb.month = bd.month := by
  unfold tryReplace at h
  cases h1 : replace_year bd y with
  | some nb1 =>
    rw [h1] at h
    dsimp only at h
    cases h
    obtain ⟨he, hv⟩ := replace_year_some bd y _ h1
    exact ⟨hv, by rw [he], by rw [he]⟩
  | none =>
    rw [h1] at h
    dsimp only at h
    cases h2 : replace_year_day bd y (bd.day - 1) with
    | some nb2 =>
      rw [h2] at h
      dsimp only at h
      cases h
      obtain ⟨he, hv⟩ := replace_year_day_some bd y (bd.day - 1) _ h2
      exact ⟨hv, by rw [he], by rw [he]⟩
    | none =>
      rw [h2] at h
      cases h

/-- When the requested year is in range, the `try/except` around `replace`
always produces a date: the only way `bd.replace(year = y)` can fail for a
valid `bd` is Feb 29 in a non-leap target year, and then day 28 works. -/
lemma tryReplace_total (bd : PyDate) (y : Nat) (hbd : Valid bd)
    (hy1 : 1 ≤ y) (hy2 : y ≤ 9999) : ∃ nb, tryReplace bd y = .ok nb := by
  obtain ⟨⟨hby, hbm1, hbm2, hbd1, hbd2⟩, hby2⟩ := hbd
  unfold tryReplace
  cases h1 : replace_year bd y with
  | some nb1 => exact ⟨nb1, rfl⟩
  | none =>
    have hnv := replace_year_none bd y h1
    have hclose := monthLen_close (isLeap bd.year) (isLeap y) bd.month (by omega)
    have hge := monthLen_ge (isLeap y) bd.month
    simp only [daysInMonth] at hbd2
    have hday : bd.day = monthLen (isLeap y) bd.month + 1 := by
      by_contra hc
      exact hnv (valid_mk y bd.month bd.day hy1 hy2 hbm1 hbm2 hbd1 (by omega))
    have hv2 : Valid ⟨y, bd.month, bd.day - 1⟩ :=
      valid_mk y bd.month (bd.day - 1) hy1 hy2 hbm1 hbm2 (by omega) (by omega)
    cases h2 : replace_year_day bd y (bd.day - 1) with
    | some nb2 => exact ⟨nb2, rfl⟩
    | none =>
      unfold replace_year_day at h2
      rw [if_pos hv2] at h2
      cases h2

lemma occ_valid (today bd nb : PyDate) (h : nextBirthdayOcc today bd = .ok nb) :
    Valid nb := by
  unfold nextBirthdayOcc at h
  cases h1 : tryReplace bd today.year with
  | error e => rw [h1] at h; cases h
  | ok nb1 =>
    rw [h1] at h
    dsimp only at h
    by_cases hlt : dateLtB nb1 today = true
    · rw [if_pos hlt] at h
      exact (tryReplace_valid bd (today.year + 1) nb h).1
    · rw [if_neg hlt] at h
      cases h
      exact (tryReplace_valid bd today.year _ h1).1

lemma occ_total (today bd : PyDate) (hv : Valid today) (hy : today.year ≤ 9998)
    (hbd : Valid bd) : ∃ nb, nextBirthdayOcc today bd = .ok nb := by
  obtain ⟨nb1, h1⟩ := tryReplace_total bd today.year hbd hv.1.1 (by omega)
  unfold nextBirthdayOcc
  rw [h1]
  dsimp only
  by_cases hlt : dateLtB nb1 today = true
  · rw [if_pos hlt]
    exact tryReplace_total bd (today.year + 1) hbd (by omega) (by omega)
  · rw [if_neg hlt]
    exact ⟨nb1, rfl⟩

/-! ## Per-user lemmas for `get_upcoming_birthdays` -/

/-- The weekend adjustment of lines 105-108 always lands on Monday-Friday. -/
lemma weekday_adjust (nb : PyDate) (h : CalValid nb) :
    CalValid (if weekday nb = 5 then addDays nb 2
      else if weekday nb = 6 then addDays nb 1 else nb) ∧
    weekday (if weekday nb = 5 then addDays nb 2
      else if weekday nb = 6 then addDays nb 1 else nb) < 5 := by
  by_cases h5 : weekday nb = 5
  · rw [if_pos h5]
    refine ⟨calValid_addDays nb h 2, ?_⟩
    rw [weekday_addDays nb h 2, h5]
    decide
  · rw [if_neg h5]
    by_cases h6 : weekday nb = 6
    · rw [if_pos h6]
      refine ⟨calValid_addDays nb h 1, ?_⟩
      rw [weekday_addDays nb h 1, h6]
      decide
    · rw [if_neg h6]
      have := weekday_lt nb
      exact ⟨h, by omega⟩

/-- Every greeting that `processUser` emits carries the `strftime` of a
valid date that falls on Monday-Friday. -/
lemma processUser_emit (today : PyDate) (u : PyUser) (g : Greeting)
    (h : processUser today u = .ok (some g)) :
    ∃ d2 : PyDate, CalValid d2 ∧ g.congratulation_date = strftimeDot d2 ∧
      weekday d2 < 5 := by
  unfold processUser at h
  cases hp : u.birthday.bind (fun s => strptimeDate '.' s.data) with
  | none => rw [hp] at h; cases h
  | some bd =>
    rw [hp] at h
    dsimp only at h
    cases hocc : nextBirthdayOcc today bd with
    | error e => rw [hocc] at h; cases h
    | ok nb =>
      rw [hocc] at h
      dsimp only at h
      have hnbv := occ_valid today bd nb hocc
      by_cases hw : 0 ≤ (toOrdinal nb : Int) - (toOrdinal today : Int) ∧
          (toOrdinal nb : Int) - (toOrdinal today : Int) ≤ 7
      · rw [if_pos hw] at h
        cases hname : u.name with
        | none => rw [hname] at h; cases h
        | some n =>
          rw [hname] at h
          dsimp only at h
          cases h
          obtain ⟨hcv, hwd⟩ := weekday_adjust nb hnbv.1
          exact ⟨_, hcv, rfl, hwd⟩
      · rw [if_neg hw] at h
        cases h

/-- With a name present and `today` within `datetime`'s year range, a single
record can never raise. -/
lemma processUser_total (today : PyDate) (u : PyUser) (hv : Valid today)
    (hy : today.year ≤ 9998) (hn : u.name.isSome) :
    ∃ r, processUser today u = .ok r := by
  unfold processUser
  cases hp : u.birthday.bind (fun s => strptimeDate '.' s.data) with
  | none => exact ⟨none, rfl⟩
  | some bd =>
    dsimp only
    have hbdv : Valid bd := by
      cases hb : u.birthday with
      | none => rw [hb] at hp; cases hp
      | some s =>
        rw [hb] at hp
        exact strptimeDate_valid '.' s.data bd hp
    obtain ⟨nb, hocc⟩ := occ_total today bd hv hy hbdv
    rw [hocc]
    dsimp only
    by_cases hw : 0 ≤ (toOrdinal nb : Int) - (toOrdinal today : Int) ∧
        (toOrdinal nb : Int) - (toOrdinal today : Int) ≤ 7
    · rw [if_pos hw]
      cases hname : u.name with
      | none => rw [hname] at hn; cases hn
      | some n => exact ⟨_, rfl⟩
    · rw [if_neg hw]
      exact ⟨none, rfl⟩

/-- The whole loop returns normally when every record carries a name. -/
lemma gub_total (today : PyDate) (hv : Valid today) (hy : today.year ≤ 9998) :
    ∀ users : List PyUser, (∀ u ∈ users, u.name.isSome) →
      ∃ out, get_upcoming_birthdays today users = .ok out := by
  intro users
  induction users with
  | nil => exact fun _ => ⟨[], rfl⟩
  | cons u rest ih =>
    intro hn
    obtain ⟨r, hr⟩ := processUser_total today u hv hy (hn u (List.mem_cons_self u rest))
    obtain ⟨out, hout⟩ := ih (fun v hm => hn v (List.mem_cons_of_mem u hm))
    unfold get_upcoming_birthdays
    rw [hr]
    dsimp only
    rw [hout]
    cases r with
    | some g => exact ⟨g :: out, rfl⟩
    | none => exact ⟨out, rfl⟩

/-! ## `normalize_phone` lemmas -/

lemma isPySpace_not_digit (a : Char) (h : isPySpace a = true) : a.isDigit = false := by
  simp only [isPySpace, Bool.or_eq_true, decide_eq_true_eq] at h
  rcases h with ((((h | h) | h) | h) | h) | h <;> subst h <;> rfl

lemma filter_dropWhile (p q : Char → Bool) (h : ∀ a, q a = true → p a = false)
    (l : List Char) : List.filter p (List.dropWhile q l) = List.filter p l := by
  induction l with
  | nil => rfl
  | cons a l ih =>
    by_cases hq : q a = true
    · rw [List.dropWhile_cons_of_pos hq, ih, List.filter_cons_of_neg (by simp [h a hq])]
    · rw [List.dropWhile_cons_of_neg hq]

/-- Whitespace carries no digits, so stripping does not change the kept
digit characters. -/
lemma keepDigits_pyStrip (l : List Char) : keepDigits (pyStrip l) = keepDigits l := by
  unfold pyStrip keepDigits
  rw [List.filter_reverse, filter_dropWhile _ _ isPySpace_not_digit,
    List.filter_reverse, List.reverse_reverse, filter_dropWhile _ _ isPySpace_not_digit]

lemma normalizeCore_eq_spec (l : List Char) : normalizeCore l = normalizeSpecCore l := by
  unfold normalizeCore normalizeSpecCore
  dsimp only
  by_cases h : startsWithChar '+' (pyStrip l) = true
  · rw [if_pos h, if_pos h]
  · rw [if_neg h, if_neg h, keepDigits_pyStrip]

/-! ## `get_numbers_ticket` lemmas -/

lemma detSample_valid : IsValidSampler detSample := by
  intro lo hi k hk
  unfold detSample
  refine ⟨?_, ?_, ?_⟩
  · rw [List.length_map, List.length_range]
  · refine List.Nodup.map ?_ (List.nodup_range k)
    intro a b hab
    simp only [add_right_inj, Nat.cast_inj] at hab
    exact hab
  · intro x hx
    rw [List.mem_map] at hx
    obtain ⟨i, hir, hxe⟩ := hx
    rw [List.mem_range] at hir
    subst hxe
    refine ⟨by omega, by omega⟩

/-! ## Round trip: strict `YYYY-MM-DD` strings are parsed back exactly -/

lemma monthLen_le (l : Bool) (m : Nat) : monthLen l m ≤ 31 := by
  unfold monthLen
  split <;> first | omega | (split <;> omega)

lemma digitChar_facts :
    ∀ k < 10, (Nat.digitChar k).isDigit = true ∧ digVal (Nat.digitChar k) = k := by
  decide

lemma parseYear4_pad4 (y : Nat) (hy : y < 10000) (rest : List Char) :
    parseYear4 (pad4 y ++ rest) = some (y, rest) := by
  have h1 := digitChar_facts (y / 1000 % 10) (by omega)
  have h2 := digitChar_facts (y / 100 % 10) (by omega)
  have h3 := digitChar_facts (y / 10 % 10) (by omega)
  have h4 := digitChar_facts (y % 10) (by omega)
  unfold pad4 parseYear4
  simp only [List.cons_append, List.nil_append]
  rw [if_pos (by rw [h1.1, h2.1, h3.1, h4.1]; rfl)]
  rw [h1.2, h2.2, h3.2, h4.2]
  have harith : (((y / 1000 % 10) * 10 + y / 100 % 10) * 10 + y / 10 % 10) * 10 + y % 10 = y := by
    omega
  rw [harith]

lemma parseMonth_pad2 (m : Nat) (h1 : 1 ≤ m) (h2 : m ≤ 12) (rest : List Char) :
    parseMonth (pad2 m ++ rest) = some (m, rest) := by
  interval_cases m <;> rfl

lemma parseDay_pad2 (d : Nat) (h1 : 1 ≤ d) (h2 : d ≤ 31) (rest : List Char) :
    parseDay (pad2 d ++ rest) = some (d, rest) := by
  interval_cases d <;> rfl

lemma valid_out (y m d : Nat) (h : Valid ⟨y, m, d⟩) :
    1 ≤ y ∧ y ≤ 9999 ∧ 1 ≤ m ∧ m ≤ 12 ∧ 1 ≤ d ∧ d ≤ monthLen (isLeap y) m :=
  ⟨h.1.1, h.2, h.1.2.1, h.1.2.2.1, h.1.2.2.2.1, h.1.2.2.2.2⟩

lemma strptime_render (y m d : Nat) (hv : Valid ⟨y, m, d⟩) :
    strptimeDate '-' (renderYMD y m d).data = some ⟨y, m, d⟩ := by
  obtain ⟨hy1, hy2, hm1, hm2, hd1, hd2⟩ := valid_out y m d hv
  have hd31 : d ≤ 31 := le_trans hd2 (monthLen_le (isLeap y) m)
  unfold renderYMD strptimeDate
  have hp : parseDateCore '-' (pad4 y ++ '-' :: (pad2 m ++ '-' :: pad2 d)) = some (y, m, d) := by
    unfold parseDateCore
    rw [parseYear4_pad4 y (by omega)]
    dsimp only
    rw [if_pos rfl, parseMonth_pad2 m hm1 hm2]
    dsimp only
    rw [if_pos rfl, show pad2 d = pad2 d ++ [] from (List.append_nil _).symm,
      parseDay_pad2 d hd1 hd31]
    dsimp only
    rw [if_pos rfl]
  rw [show (String.mk (pad4 y ++ '-' :: pad2 m ++ '-' :: pad2 d)).data =
    pad4 y ++ '-' :: (pad2 m ++ '-' :: pad2 d) from by simp]
  rw [hp]
  dsimp only
  rw [if_pos (valid_mk y m d hy1 hy2 hm1 hm2 hd1 hd2)]

/-! ## The Feb-29 occurrence characterization -/

lemma monthLen_feb (l : Bool) : monthLen l 2 = if l then 29 else 28 := rfl

lemma tryReplace_feb29 (y ty : Nat) (h1 : 1 ≤ ty) (h2 : ty ≤ 9999) :
    tryReplace ⟨y, 2, 29⟩ ty =
      .ok (if isLeap ty then ⟨ty, 2, 29⟩ else ⟨ty, 2, 28⟩) := by
  unfold tryReplace replace_year replace_year_day
  dsimp only
  by_cases hl : isLeap ty = true
  · have h29 : monthLen (isLeap ty) 2 = 29 := by rw [monthLen_feb, if_pos hl]
    rw [if_pos (valid_mk ty 2 29 h1 h2 (by omega) (by omega) (by omega) (by omega))]
    dsimp only
    rw [if_pos hl]
  · have hl2 : isLeap ty = false := by revert hl; cases isLeap ty <;> simp
    have h28 : monthLen (isLeap ty) 2 = 28 := by rw [monthLen_feb, hl2]; rfl
    have hnv : ¬ Valid ⟨ty, 2, 29⟩ := by
      intro hq
      have h5 : (29 : Nat) ≤ daysInMonth ty 2 := hq.1.2.2.2.2
      rw [show daysInMonth ty 2 = monthLen (isLeap ty) 2 from rfl, h28] at h5
      omega
    rw [if_neg hnv]
    dsimp only
    rw [show (29 : Nat) - 1 = 28 from rfl]
    rw [if_pos (valid_mk ty 2 28 h1 h2 (by omega) (by omega) (by omega) (by omega))]
    dsimp only
    rw [hl2]
    rfl

example : strptimeDate '-' "2021-10-09".data = some ⟨2021, 10, 9⟩ := by decide
example : strptimeDate '-' "2024-13-01".data = none := by decide
example : strptimeDate '-' "2024-1-9".data = some ⟨2024, 1, 9⟩ := by decide
example : strptimeDate '-' "2024-02-30".data = none := by decide
example : strptimeDate '.' "1990.01.27".data = some ⟨1990, 1, 27⟩ := by decide
example : strftimeDot ⟨2024, 1, 29⟩ = "2024.01.29" := by decide
example : weekday ⟨2024, 1, 27⟩ = 5 := by decide
example : weekday ⟨2024, 1, 20⟩ = 5 := by decide
example : toOrdinal ⟨2021, 1, 1⟩ = 737791 := by decide
example : get_days_from_today ⟨2024, 1, 1⟩ "2021-10-09" = .ok 814 := by decide
example : normalize_phone "    +38(050)123-32-34" = "+380501233234" := by decide
example : normalize_phone "     0503451234" = "+380503451234" := by decide
example : normalize_phone "380501234567" = "+380501234567" := by decide
example : normalize_phone "067\t123 4567" = "+380671234567" := by decide
example : processUser ⟨2024, 1, 20⟩ ⟨some "Jane Smith", some "1990.01.27"⟩ =
    .ok (some ⟨"Jane Smith", "2024.01.29"⟩) := by decide
example : processUser ⟨2024, 1, 20⟩ ⟨some "John Doe", some "1985.01.23"⟩ =
    .ok (some ⟨"John Doe", "2024.01.23"⟩) := by decide
example : processUser ⟨2024, 1, 20⟩ ⟨some "A", some "not-a-date"⟩ = .ok none := by decide
example : processUser ⟨2024, 1, 15⟩ ⟨none, some "2024.01.15"⟩ =
    .error (.keyError "name") := by decide
example : nextBirthdayOcc ⟨2023, 1, 15⟩ ⟨2020, 2, 29⟩ = .ok ⟨2023, 2, 28⟩ := by decide
example : nextBirthdayOcc ⟨2023, 3, 15⟩ ⟨2020, 2, 29⟩ = .ok ⟨2024, 2, 29⟩ := by decide
example : nextBirthdayOcc ⟨9999, 3, 15⟩ ⟨2020, 2, 29⟩ =
    .error (.valueError "day is out of range for month") := by decide

/-! ## Claim theorems -/

/-- C1, counterexample: `get_upcoming_birthdays` does *not* return normally
on every input list.  A record with an in-window birthday but no `name` key
raises a `KeyError` that propagates to the caller, because line 112 of
`src/main.py` reads `user["name"]` outside the `try/except`. -/
theorem get_upcoming_missing_name_raises :
    get_upcoming_birthdays ⟨2024, 1, 15⟩ [⟨none, some "2024.01.15"⟩] =
      .error (.keyError "name") := by
  decide

/-- C1, amended: `get_upcoming_birthdays` returns normally and silently
skips every record whose `birthday` is missing or unparseable, provided
every record carries a `name` field (and today's year is below 9999, so
the uncaught `ValueError` of a Feb-29 fallback into year 10000 cannot
occur). -/
theorem get_upcoming_ok_when_names_present (today : PyDate) (users : List PyUser)
    (hv : Valid today) (hy : today.year ≤ 9998)
    (hn : ∀ u ∈ users, u.name.isSome) :
    (∃ out, get_upcoming_birthdays today users = .ok out) ∧
    ∀ u : PyUser, u.birthday.bind (fun s => strptimeDate '.' s.data) = none →
      processUser today u = .ok none := by
  refine ⟨gub_total today hv hy users hn, ?_⟩
  intro u hu
  unfold processUser
  rw [hu]

theorem get_upcoming_ok_when_names_present_witness :
    (∃ out, get_upcoming_birthdays ⟨2024, 1, 15⟩
      [⟨some "A", some "bad"⟩, ⟨some "B", some "2024.01.16"⟩] = .ok out) ∧
    ∀ u : PyUser, u.birthday.bind (fun s => strptimeDate '.' s.data) = none →
      processUser ⟨2024, 1, 15⟩ u = .ok none :=
  get_upcoming_ok_when_names_present ⟨2024, 1, 15⟩
    [⟨some "A", some "bad"⟩, ⟨some "B", some "2024.01.16"⟩]
    (by decide) (by decide) (by decide)

/-- C2, counterexample: with `today` fixed to 2024-01-01,
`get_days_from_today("2021-10-09")` does not return 815. -/
theorem days_from_today_not_815 :
    get_days_from_today ⟨2024, 1, 1⟩ "2021-10-09" ≠ .ok 815 := by
  decide

/-- C2, amended: with `today` fixed to 2024-01-01,
`get_days_from_today("2021-10-09")` returns exactly 814
(the actual day distance from 2021-10-09 to 2024-01-01). -/
theorem days_from_today_2021_10_09_is_814 :
    get_days_from_today ⟨2024, 1, 1⟩ "2021-10-09" = .ok 814 := by
  decide

/-- C3: `normalize_phone` computes exactly the spec's steps: trim the
surrounding whitespace; with a leading `+`, return `+` followed by the
digit characters of the remainder; otherwise take the digit characters of
the whole input string and return `+` + digits when they start with `380`,
else `+38` + the full digit string.  (`normalizeSpecCore` transcribes
those steps; the whole-string/trimmed-string difference is immaterial
because whitespace carries no digits.) -/
theorem normalize_phone_matches_spec_steps (s : String) :
    normalize_phone s = normalize_phone_spec s := by
  unfold normalize_phone normalize_phone_spec
  rw [normalizeCore_eq_spec]

/-- C4: whenever the (possibly next-year) birthday occurrence `nb` lies 0-7
days from `today`, the emitted greeting's `congratulation_date` is the
`strftime` of `nb` moved 2 days forward if `nb` is a Saturday (weekday 5),
1 day forward if a Sunday (weekday 6), and of `nb` itself otherwise; and
concretely, with today = 2024-01-20 a user with birthday `"1990.01.27"`
(a Saturday) yields `"2024.01.29"`. -/
theorem birthday_weekend_shift :
    (∀ (today : PyDate) (user : PyUser) (n bs : String) (bd nb : PyDate),
      user.name = some n → user.birthday = some bs →
      strptimeDate '.' bs.data = some bd →
      nextBirthdayOcc today bd = .ok nb →
      0 ≤ (toOrdinal nb : Int) - (toOrdinal today : Int) →
      (toOrdinal nb : Int) - (toOrdinal today : Int) ≤ 7 →
      processUser today user = .ok (some ⟨n, strftimeDot
        (if weekday nb = 5 then addDays nb 2
         else if weekday nb = 6 then addDays nb 1 else nb)⟩)) ∧
    get_upcoming_birthdays ⟨2024, 1, 20⟩ [⟨some "Jane Smith", some "1990.01.27"⟩] =
      .ok [⟨"Jane Smith", "2024.01.29"⟩] := by
  constructor
  · intro today user n bs bd nb hn hb hparse hocc h0 h7
    unfold processUser
    rw [hb]
    dsimp only [Option.bind]
    rw [hparse]
    dsimp only
    rw [hocc]
    dsimp only
    rw [if_pos ⟨h0, h7⟩, hn]
  · decide

theorem birthday_weekend_shift_witness :
    processUser ⟨2024, 1, 20⟩ ⟨some "Jane Smith", some "1990.01.27"⟩ =
      .ok (some ⟨"Jane Smith", "2024.01.29"⟩) := by
  have h := birthday_weekend_shift.1 ⟨2024, 1, 20⟩
    ⟨some "Jane Smith", some "1990.01.27"⟩ "Jane Smith" "1990.01.27"
    ⟨1990, 1, 27⟩ ⟨2024, 1, 27⟩ rfl rfl (by decide) (by decide) (by decide) (by decide)
  rw [h]
  decide

/-- C5: for a Feb-29 birthday, when the target year (this year, or next
year if this year's occurrence - Feb 29, or Feb 28 after the fallback -
already passed) is not a leap year, the computed occurrence is February 28
of that target year: the nonexistent leap date is shifted one day
backward. -/
theorem feb29_fallback_day28 (today : PyDate) (y : Nat) (hv : Valid today)
    (target : Nat)
    (ht : target = if dateLtB (if isLeap today.year then (⟨today.year, 2, 29⟩ : PyDate)
        else ⟨today.year, 2, 28⟩) today then today.year + 1 else today.year)
    (hnl : isLeap target = false) :
    nextBirthdayOcc today ⟨y, 2, 29⟩ = .ok ⟨target, 2, 28⟩ := by
  have hty1 : 1 ≤ today.year := hv.1.1
  have hty2 : today.year ≤ 9999 := hv.2
  unfold nextBirthdayOcc
  rw [tryReplace_feb29 y today.year hty1 hty2]
  dsimp only
  by_cases hlt : dateLtB (if isLeap today.year then (⟨today.year, 2, 29⟩ : PyDate)
      else ⟨today.year, 2, 28⟩) today = true
  · rw [if_pos hlt]
    rw [if_pos hlt] at ht
    have h10k : target ≠ 10000 := by
      intro hq
      rw [hq] at hnl
      exact absurd hnl (by decide)
    rw [tryReplace_feb29 y (today.year + 1) (by omega) (by omega)]
    rw [← ht, hnl]
    rfl
  · rw [if_neg hlt]
    rw [if_neg hlt] at ht
    subst ht
    rw [hnl]
    rfl

theorem feb29_fallback_day28_witness :
    nextBirthdayOcc ⟨2023, 1, 15⟩ ⟨2020, 2, 29⟩ = .ok ⟨2023, 2, 28⟩ :=
  feb29_fallback_day28 ⟨2023, 1, 15⟩ 2020 (by decide) 2023 (by decide) (by decide)

/-- C6: under the validated bounds (`min_val ≥ 1`, `max_val ≤ 1000`,
`quantity ≥ 1`, `quantity ≤ max_val - min_val + 1`), every result
`get_numbers_ticket` can produce - for any sampler meeting
`random.sample`'s contract - is a strictly ascending (hence
pairwise-distinct) list of exactly `quantity` integers inside
`[min_val, max_val]`. -/
theorem lottery_draw_properties (sample : Int → Int → Nat → List Int)
    (hs : IsValidSampler sample) (min_val max_val quantity : Int)
    (h1 : 1 ≤ min_val) (h2 : max_val ≤ 1000) (h3 : 1 ≤ quantity)
    (h4 : quantity ≤ max_val - min_val + 1) :
    ((get_numbers_ticket sample min_val max_val quantity).length : Int) = quantity ∧
    List.Sorted (· < ·) (get_numbers_ticket sample min_val max_val quantity) ∧
    ∀ x ∈ get_numbers_ticket sample min_val max_val quantity,
      min_val ≤ x ∧ x ≤ max_val := by
  have hcond : ¬ ((decide (min_val < 1) || decide (max_val > 1000) ||
      decide (quantity < 1) || decide (quantity > max_val - min_val + 1)) = true) := by
    simp only [Bool.or_eq_true, decide_eq_true_eq]
    omega
  obtain ⟨hlen, hnd, hmem⟩ := hs min_val max_val quantity.toNat (by omega)
  unfold get_numbers_ticket
  rw [if_neg hcond]
  refine ⟨?_, ?_, ?_⟩
  · rw [List.length_insertionSort, hlen]
    omega
  · exact List.Sorted.lt_of_le (List.sorted_insertionSort _ _)
      (((List.perm_insertionSort _ _).nodup_iff).mpr hnd)
  · intro x hx
    exact hmem x ((List.mem_insertionSort _).mp hx)

theorem lottery_draw_properties_witness :
    ((get_numbers_ticket detSample 1 49 6).length : Int) = 6 ∧
    List.Sorted (· < ·) (get_numbers_ticket detSample 1 49 6) ∧
    ∀ x ∈ get_numbers_ticket detSample 1 49 6, 1 ≤ x ∧ x ≤ 49 :=
  lottery_draw_properties detSample detSample_valid 1 49 6
    (by decide) (by decide) (by decide) (by decide)

/-- C7: whenever `min_val < 1`, or `max_val > 1000`, or `quantity < 1`, or
`quantity` exceeds the size of the range, `get_numbers_ticket` returns the
empty list (the embedded function is total, so no error is raised). -/
theorem lottery_invalid_empty (sample : Int → Int → Nat → List Int)
    (min_val max_val quantity : Int)
    (h : min_val < 1 ∨ max_val > 1000 ∨ quantity < 1 ∨
      quantity > max_val - min_val + 1) :
    get_numbers_ticket sample min_val max_val quantity = [] := by
  have hcond : (decide (min_val < 1) || decide (max_val > 1000) ||
      decide (quantity < 1) || decide (quantity > max_val - min_val + 1)) = true := by
    simp only [Bool.or_eq_true, decide_eq_true_eq]
    tauto
  unfold get_numbers_ticket
  rw [if_pos hcond]

theorem lottery_invalid_empty_witness :
    get_numbers_ticket detSample 0 49 6 = [] :=
  lottery_invalid_empty detSample 0 49 6 (Or.inl (by decide))

/-- C8, counterexample: the string `"2024-1-9"` does not match the strict
`YYYY-MM-DD` format (its month and day are single digits), yet
`get_days_from_today` parses it successfully and returns a day count
instead of failing: CPython's `%m`/`%d` also accept unpadded one-digit
fields. -/
theorem days_from_today_lenient_parse :
    strictYMD "2024-1-9" = false ∧
    get_days_from_today ⟨2024, 1, 1⟩ "2024-1-9" = .ok (-8) := by
  decide

/-- C8, amended: `get_days_from_today` fails exactly on strings rejected by
the `%Y-%m-%d` pattern (four-digit year, one- or two-digit month and day,
valid calendar date in years 1-9999), always with a `ValueError` carrying
the message `Invalid date format. Expected 'YYYY-MM-DD'.`; on every
accepted string - in particular on every valid strictly-formatted
`YYYY-MM-DD` string - it returns `today` minus the parsed date in whole
days (negative for future dates, zero for today). -/
theorem days_from_today_error_contract (today : PyDate) (s : String) :
    (strptimeDate '-' s.data = none →
      get_days_from_today today s =
        .error (.valueError "Invalid date format. Expected \x27YYYY-MM-DD\x27.")) ∧
    (∀ dt : PyDate, strptimeDate '-' s.data = some dt →
      get_days_from_today today s =
        .ok ((toOrdinal today : Int) - (toOrdinal dt : Int))) ∧
    (∀ y m d : Nat, Valid ⟨y, m, d⟩ →
      get_days_from_today today (renderYMD y m d) =
        .ok ((toOrdinal today : Int) - (toOrdinal ⟨y, m, d⟩ : Int))) := by
  refine ⟨?_, ?_, ?_⟩
  · intro h
    unfold get_days_from_today
    rw [h]
  · intro dt h
    unfold get_days_from_today
    rw [h]
  · intro y m d hvd
    unfold get_days_from_today
    rw [strptime_render y m d hvd]

theorem days_from_today_error_contract_witness :
    get_days_from_today ⟨2024, 1, 1⟩ "nonsense" =
      .error (.valueError "Invalid date format. Expected \x27YYYY-MM-DD\x27.") ∧
    get_days_from_today ⟨2024, 1, 1⟩ (renderYMD 2021 10 9) = .ok 814 := by
  constructor
  · exact (days_from_today_error_contract ⟨2024, 1, 1⟩ "nonsense").1 (by decide)
  · have h := (days_from_today_error_contract ⟨2024, 1, 1⟩ "x").2.2 2021 10 9 (by decide)
    rw [h]
    decide

/-- C9: for every input string, `normalize_phone` returns (the embedding is
a total function, so no error is raised) and the result is canonical: the
character `+` followed by digit characters only. -/
theorem normalize_phone_plus_digits (s : String) :
    ∃ ds : List Char, (normalize_phone s).data = '+' :: ds ∧
      ∀ c ∈ ds, c.isDigit = true := by
  unfold normalize_phone normalizeCore
  dsimp only
  by_cases h : startsWithChar '+' (pyStrip s.data) = true
  · rw [if_pos h]
    exact ⟨_, rfl, fun c hc => (List.mem_filter.mp hc).2⟩
  · rw [if_neg h]
    by_cases h2 : List.isPrefixOf ['3', '8', '0'] (keepDigits (pyStrip s.data)) = true
    · rw [if_pos h2]
      exact ⟨_, rfl, fun c hc => (List.mem_filter.mp hc).2⟩
    · rw [if_neg h2]
      refine ⟨_, rfl, ?_⟩
      intro c hc
      rcases List.mem_cons.mp hc with rfl | hc2
      · decide
      rcases List.mem_cons.mp hc2 with rfl | hc3
      · decide
      exact (List.mem_filter.mp hc3).2

/-- C10: every greeting emitted by `get_upcoming_birthdays` carries a
`congratulation_date` that is the `strftime` of a date falling on a
weekday (Monday-Friday, `weekday < 5`); Saturdays and Sundays never
appear. -/
theorem congratulation_date_weekday (today : PyDate) (users : List PyUser)
    (out : List Greeting) (g : Greeting)
    (hout : get_upcoming_birthdays today users = .ok out) (hg : g ∈ out) :
    ∃ d2 : PyDate, CalValid d2 ∧ g.congratulation_date = strftimeDot d2 ∧
      weekday d2 < 5 := by
  induction users generalizing out with
  | nil =>
    unfold get_upcoming_birthdays at hout
    cases hout
    cases hg
  | cons u rest ih =>
    unfold get_upcoming_birthdays at hout
    cases hpu : processUser today u with
    | error e => rw [hpu] at hout; cases hout
    | ok og =>
      rw [hpu] at hout
      dsimp only at hout
      cases hrest : get_upcoming_birthdays today rest with
      | error e => rw [hrest] at hout; cases hout
      | ok l =>
        rw [hrest] at hout
        dsimp only at hout
        cases og with
        | none =>
          cases hout
          exact ih _ hrest hg
        | some g0 =>
          dsimp only at hout
          cases hout
          rcases List.mem_cons.mp hg with rfl | hmem
          · exact processUser_emit today u g hpu
          · exact ih _ hrest hmem

theorem congratulation_date_weekday_witness :
    ∃ d2 : PyDate, CalValid d2 ∧
      (Greeting.mk "Jane Smith" "2024.01.29").congratulation_date = strftimeDot d2 ∧
      weekday d2 < 5 :=
  congratulation_date_weekday ⟨2024, 1, 20⟩ [⟨some "Jane Smith", some "1990.01.27"⟩]
    [⟨"Jane Smith", "2024.01.29"⟩] ⟨"Jane Smith", "2024.01.29"⟩
    (by decide) (by decide)
